import Mathlib

/-!
# ESP32 multicore demo: timer ISR, two pinned tasks and one shared spinlock

Embedding of `src/main.cpp`.  The three function bodies (`onTimer`, `doTaskL`,
`doTaskH`) are straight-line statement lists; a scheduler word (a list of
`Action`s) picks which execution context performs its next statement, so every
interleaving of the two cores is a value of `List Action`.  The millisecond
clock is the sequence of values returned by successive calls of
`pdTICKS_TO_MS(xTaskGetTickCount())`; it is a parameter `clock : Nat → Nat`
and is read modulo `2 ^ 32` (`TickType_t`).
-/

namespace SpinlockDemo

/-! ## Settings (`main.cpp`, lines 37-44) -/

/-- Prescaler of the hardware timer: `static const uint16_t timer_divider = 80`. -/
def timer_divider : Nat := 80

/-- Alarm value of the hardware timer: `static const uint64_t timer_max_count = 2000000`. -/
def timer_max_count : Nat := 2000000

/-- Busy time of the tasks in ms: `static const TickType_t task_wait = 100`. -/
def task_wait : Nat := 100

/-- Busy time of the ISR in ms: `static const TickType_t isr_wait = 20`. -/
def isr_wait : Nat := 20

/-- Core numbers of `soc.h`, quoted in the header comment of `main.cpp`. -/
def PRO_CPU_NUM : Nat := 0

/-- Core numbers of `soc.h`, quoted in the header comment of `main.cpp`. -/
def APP_CPU_NUM : Nat := 1

/-! ## The millisecond clock and the busy-wait loop -/

/-- Number of values of the 32-bit unsigned `TickType_t`. -/
def tickModulus : Nat := 2 ^ 32

/-- The `i`-th value returned by `pdTICKS_TO_MS(xTaskGetTickCount())`, as a `TickType_t`. -/
def readMs (clock : Nat → Nat) (i : Nat) : Nat := clock i % tickModulus

/-- The unsigned 32-bit difference `reading - timestamp` of the loop condition. -/
def elapsed (reading timestamp : Nat) : Nat :=
  (reading % tickModulus + tickModulus - timestamp % tickModulus) % tickModulus

/-- The loop `while (pdTICKS_TO_MS(xTaskGetTickCount()) - timestamp < w);`
run on the readings `i, i+1, ...` of the clock: the index of the reading at
which the loop exits, or `none` when `fuel` readings did not end it. -/
def busyWait (clock : Nat → Nat) (timestamp w : Nat) : Nat → Nat → Option Nat
  | 0, _ => none
  | fuel + 1, i =>
    if elapsed (readMs clock i) timestamp < w then busyWait clock timestamp w fuel (i + 1)
    else some i

/-! ## Statements and function bodies -/

/-- The primitive statements that occur in the three function bodies. -/
inductive Stmt where
  /-- `Serial.print(s)` -/
  | print (s : String)
  /-- `Serial.println(s)` -/
  | println (s : String)
  /-- `portENTER_CRITICAL(&spinlock)` -/
  | enterCritical
  /-- `portEXIT_CRITICAL(&spinlock)` -/
  | exitCritical
  /-- `portENTER_CRITICAL_ISR(&spinlock)` -/
  | enterCriticalISR
  /-- `portEXIT_CRITICAL_ISR(&spinlock)` -/
  | exitCriticalISR
  /-- `timestamp = pdTICKS_TO_MS(xTaskGetTickCount())` -/
  | stamp
  /-- One evaluation of the condition of
  `while (pdTICKS_TO_MS(xTaskGetTickCount()) - timestamp < w);` -/
  | spin (w : Nat)
  deriving DecidableEq, Repr

/-- Body of `void IRAM_ATTR onTimer()` (lines 63-79). -/
def onTimer : List Stmt :=
  [ .print "ISR...",
    .enterCriticalISR,
    .stamp,
    .spin isr_wait,
    .exitCriticalISR,
    .println "Finita la ISR" ]

/-- Body of the `while (1)` loop of `doTaskL` (lines 92-100). -/
def doTaskL : List Stmt :=
  [ .println "L",
    .stamp,
    .spin task_wait ]

/-- Body of the `while (1)` loop of `doTaskH` (lines 110-123). -/
def doTaskH : List Stmt :=
  [ .print "spinning...",
    .enterCritical,
    .println "H",
    .exitCritical,
    .stamp,
    .spin task_wait ]

/-- Whether the statement takes the spinlock. -/
def Stmt.isEnter : Stmt → Bool
  | .enterCritical => true
  | .enterCriticalISR => true
  | _ => false

/-- Whether the statement gives the spinlock back. -/
def Stmt.isExit : Stmt → Bool
  | .exitCritical => true
  | .exitCriticalISR => true
  | _ => false

/-- A context whose next statement is number `pc` of `body` is inside its
critical section when, among the statements before `pc`, it has passed more
`portENTER_CRITICAL` than `portEXIT_CRITICAL`. -/
def inCritical (body : List Stmt) (pc : Nat) : Bool :=
  decide (((body.take pc).filter Stmt.isExit).length
    < ((body.take pc).filter Stmt.isEnter).length)

/-! ## Execution state -/

/-- What a context did, as seen from outside. `holding` tells whether the
spinlock was owned by the context's core at that moment. -/
inductive Event where
  | emit (text : String) (holding : Bool)
  | acquire
  | release
  | stamp (ms : Nat) (holding : Bool)
  | poll (ms : Nat) (holding : Bool)
  deriving DecidableEq, Repr

/-- Whether the event is an acquisition of the spinlock. -/
def Event.isAcquire : Event → Bool
  | .acquire => true
  | _ => false

/-- Whether the event is a release of the spinlock. -/
def Event.isRelease : Event → Bool
  | .release => true
  | _ => false

/-- State shared by all contexts: the spinlock (`none` is
`portMUX_INITIALIZER_UNLOCKED`, `some c` is held by core `c`), the number of
clock readings handed out so far, and counters of lock operations. -/
structure Shared where
  lock : Option Nat
  reads : Nat
  acquires : Nat
  releases : Nat
  deriving DecidableEq, Repr

/-- State of one execution context. -/
structure Thread where
  /-- the context is executing its body -/
  active : Bool
  /-- index of its next statement -/
  pc : Nat
  /-- the local variable `timestamp` -/
  timestamp : Nat
  /-- events of the invocation or loop iteration in progress -/
  trace : List Event
  /-- event traces of the completed invocations or iterations, latest first -/
  hist : List (List Event)
  deriving DecidableEq, Repr

/-- The whole system. -/
structure Sys where
  g : Shared
  isr : Thread
  taskH : Thread
  taskL : Thread
  deriving DecidableEq, Repr

/-- Modelled from the spec: the spinlock macros `portENTER_CRITICAL(_ISR)` and
`portEXIT_CRITICAL(_ISR)` belong to the platform and are not in `src/`; section
4.1 gives their contract: acquire busy-waits until the lock is free and then
marks it held, release clears it, without an ownership check.  A context that
finds the lock held stays at the statement.  The other statements follow
`main.cpp`. -/
def execStmt (clock : Nat → Nat) (core : Nat) (st : Stmt) (g : Shared) (t : Thread) :
    Shared × Thread :=
  let holding : Bool := decide (g.lock = some core)
  match st with
  | .print s =>
    (g, { t with pc := t.pc + 1, trace := t.trace ++ [.emit s holding] })
  | .println s =>
    (g, { t with pc := t.pc + 1, trace := t.trace ++ [.emit (s ++ "\r\n") holding] })
  | .enterCritical | .enterCriticalISR =>
    match g.lock with
    | none =>
      ({ g with lock := some core, acquires := g.acquires + 1 },
       { t with pc := t.pc + 1, trace := t.trace ++ [.acquire] })
    | some _ => (g, t)
  | .exitCritical | .exitCriticalISR =>
    ({ g with lock := none, releases := g.releases + 1 },
     { t with pc := t.pc + 1, trace := t.trace ++ [.release] })
  | .stamp =>
    ({ g with reads := g.reads + 1 },
     { t with pc := t.pc + 1, timestamp := readMs clock g.reads,
              trace := t.trace ++ [.stamp (readMs clock g.reads) holding] })
  | .spin w =>
    ({ g with reads := g.reads + 1 },
     { t with pc := if elapsed (readMs clock g.reads) t.timestamp < w then t.pc else t.pc + 1,
              trace := t.trace ++ [.poll (readMs clock g.reads) holding] })

/-- End of the body: a task (`loop = true`) goes round its `while (1)`, the ISR
(`loop = false`) returns.  The finished trace is filed in `hist`. -/
def finish (loop : Bool) (body : List Stmt) (t : Thread) : Thread :=
  if t.pc < body.length then t
  else { t with active := loop, pc := 0, trace := [], hist := t.trace :: t.hist }

/-- One statement of a context running `body` on `core`. -/
def stepThread (clock : Nat → Nat) (core : Nat) (loop : Bool) (body : List Stmt)
    (g : Shared) (t : Thread) : Shared × Thread :=
  match body.get? t.pc with
  | none => (g, t)
  | some st => ((execStmt clock core st g t).1, finish loop body (execStmt clock core st g t).2)

/-- Scheduler choices: the timer alarm fires, or one of the three contexts
performs its next statement. -/
inductive Action where
  | fire
  | isr
  | taskH
  | taskL
  deriving DecidableEq, Repr

/-- State after `setup`: lock free, the ISR not running, both tasks at the top
of their loops. -/
def init : Sys :=
  { g := { lock := none, reads := 0, acquires := 0, releases := 0 },
    isr := { active := false, pc := 0, timestamp := 0, trace := [], hist := [] },
    taskH := { active := true, pc := 0, timestamp := 0, trace := [], hist := [] },
    taskL := { active := true, pc := 0, timestamp := 0, trace := [], hist := [] } }

/-- One step of the system.  The ISR runs on core 1 (`APP_CPU_NUM`) and
preempts Task L there; Task H runs on core 0 (`PRO_CPU_NUM`). -/
def step (clock : Nat → Nat) (s : Sys) : Action → Sys
  | .fire =>
    if s.isr.active then s else { s with isr := { s.isr with active := true } }
  | .isr =>
    if s.isr.active then
      { s with g := (stepThread clock APP_CPU_NUM false onTimer s.g s.isr).1,
               isr := (stepThread clock APP_CPU_NUM false onTimer s.g s.isr).2 }
    else s
  | .taskH =>
    { s with g := (stepThread clock PRO_CPU_NUM true doTaskH s.g s.taskH).1,
             taskH := (stepThread clock PRO_CPU_NUM true doTaskH s.g s.taskH).2 }
  | .taskL =>
    if s.isr.active then s
    else
      { s with g := (stepThread clock APP_CPU_NUM true doTaskL s.g s.taskL).1,
               taskL := (stepThread clock APP_CPU_NUM true doTaskL s.g s.taskL).2 }

/-- The state reached from `s` under a scheduler word. -/
def runFrom (clock : Nat → Nat) (s : Sys) (sched : List Action) : Sys :=
  sched.foldl (step clock) s

/-- The state reached from `init` under a scheduler word. -/
def run (clock : Nat → Nat) (sched : List Action) : Sys :=
  runFrom clock init sched

/-! ## Shapes of the event traces -/

/-- Readings of the clock taken by a busy-wait loop, as events. -/
def polls (holding : Bool) (rs : List Nat) : List Event :=
  rs.map (fun r => Event.poll r holding)

/-- Events of `onTimer` from its start up to readings `rs` of its loop. -/
def isrWaiting (t0 : Nat) (rs : List Nat) : List Event :=
  [.emit "ISR..." false, .acquire, .stamp t0 true] ++ polls true rs

/-- Events of one round of `doTaskH` up to readings `rs` of its loop. -/
def hWaiting (t0 : Nat) (rs : List Nat) : List Event :=
  [.emit "spinning..." false, .acquire, .emit ("H" ++ "\r\n") true, .release, .stamp t0 false]
    ++ polls false rs

/-- Events of one round of `doTaskL` up to readings `rs` of its loop. -/
def lWaiting (t0 : Nat) (rs : List Nat) : List Event :=
  [.emit ("L" ++ "\r\n") false, .stamp t0 false] ++ polls false rs

/-- The trace of `onTimer` when its next statement is number `pc`. -/
def IsrAt (pc ts : Nat) (tr : List Event) : Prop :=
  match pc with
  | 0 => tr = []
  | 1 => tr = [.emit "ISR..." false]
  | 2 => tr = [.emit "ISR..." false, .acquire]
  | 3 => ∃ rs, tr = isrWaiting ts rs ∧ ∀ x ∈ rs, elapsed x ts < isr_wait
  | 4 => ∃ t0 rs r, tr = isrWaiting t0 rs ++ [.poll r true]
      ∧ (∀ x ∈ rs, elapsed x t0 < isr_wait) ∧ isr_wait ≤ elapsed r t0
  | 5 => ∃ t0 rs r, tr = isrWaiting t0 rs ++ [.poll r true, .release]
      ∧ (∀ x ∈ rs, elapsed x t0 < isr_wait) ∧ isr_wait ≤ elapsed r t0
  | _ => False

/-- The trace of a completed invocation of `onTimer`. -/
def IsrDone (tr : List Event) : Prop :=
  ∃ t0 rs r, tr = isrWaiting t0 rs
      ++ [.poll r true, .release, .emit ("Finita la ISR" ++ "\r\n") false]
    ∧ (∀ x ∈ rs, elapsed x t0 < isr_wait) ∧ isr_wait ≤ elapsed r t0

/-- The trace of the current round of `doTaskH` when its next statement is number `pc`. -/
def HAt (pc ts : Nat) (tr : List Event) : Prop :=
  match pc with
  | 0 => tr = []
  | 1 => tr = [.emit "spinning..." false]
  | 2 => tr = [.emit "spinning..." false, .acquire]
  | 3 => tr = [.emit "spinning..." false, .acquire, .emit ("H" ++ "\r\n") true]
  | 4 => tr = [.emit "spinning..." false, .acquire, .emit ("H" ++ "\r\n") true, .release]
  | 5 => ∃ rs, tr = hWaiting ts rs ∧ ∀ x ∈ rs, elapsed x ts < task_wait
  | _ => False

/-- The trace of a completed round of `doTaskH`. -/
def HDone (tr : List Event) : Prop :=
  ∃ t0 rs r, tr = hWaiting t0 rs ++ [.poll r false]
    ∧ (∀ x ∈ rs, elapsed x t0 < task_wait) ∧ task_wait ≤ elapsed r t0

/-- The trace of the current round of `doTaskL` when its next statement is number `pc`. -/
def LAt (pc ts : Nat) (tr : List Event) : Prop :=
  match pc with
  | 0 => tr = []
  | 1 => tr = [.emit ("L" ++ "\r\n") false]
  | 2 => ∃ rs, tr = lWaiting ts rs ∧ ∀ x ∈ rs, elapsed x ts < task_wait
  | _ => False

/-- The trace of a completed round of `doTaskL`. -/
def LDone (tr : List Event) : Prop :=
  ∃ t0 rs r, tr = lWaiting t0 rs ++ [.poll r false]
    ∧ (∀ x ∈ rs, elapsed x t0 < task_wait) ∧ task_wait ≤ elapsed r t0


/-- A trace in which the spinlock is taken once and given back once, in this order. -/
def AcquireThenRelease (tr : List Event) : Prop :=
  ∃ pre mid post, tr = pre ++ Event.acquire :: mid ++ Event.release :: post
    ∧ ∀ e ∈ pre ++ mid ++ post, e.isAcquire = false ∧ e.isRelease = false

/-! ## `setup` -/

/-- The functions of `main.cpp` that `setup` hands to the platform. -/
inductive Entry where
  | onTimer
  | doTaskL
  | doTaskH
  deriving DecidableEq, Repr

/-- The platform calls made by `setup`, with the arguments that matter. -/
inductive Call where
  /-- `Serial.begin(baud)` -/
  | serialBegin (baud : Nat)
  /-- `vTaskDelay(pdMS_TO_TICKS(ms))` -/
  | vTaskDelay (ms : Nat)
  /-- `Serial.println(s)` -/
  | serialPrintln (s : String)
  /-- `timer = timerBegin(num, divider, countUp)` -/
  | timerBegin (num divider : Nat) (countUp : Bool)
  /-- `timerAttachInterrupt(timer, &handler, edge)` -/
  | timerAttachInterrupt (handler : Entry) (edge : Bool)
  /-- `timerAlarmWrite(timer, alarm, autoreload)` -/
  | timerAlarmWrite (alarm : Nat) (autoreload : Bool)
  /-- `timerAlarmEnable(timer)` -/
  | timerAlarmEnable
  /-- `xTaskCreatePinnedToCore(entry, name, stack, NULL, priority, NULL, core)` -/
  | xTaskCreatePinnedToCore (entry : Entry) (name : String) (stack priority core : Nat)
  /-- `vTaskDelete(NULL)`: deletes the calling task -/
  | vTaskDelete
  deriving DecidableEq, Repr

/-- Body of `void setup()` (lines 130-168). -/
def setup : List Call :=
  [ .serialBegin 115200,
    .vTaskDelay 1000,
    .serialPrintln "",
    .serialPrintln "FreeRTOS Esempio di spinlock e multicore",
    .timerBegin 0 timer_divider true,
    .timerAttachInterrupt .onTimer true,
    .timerAlarmWrite timer_max_count true,
    .timerAlarmEnable,
    .xTaskCreatePinnedToCore .doTaskL "Task L" 3072 1 APP_CPU_NUM,
    .xTaskCreatePinnedToCore .doTaskH "Task H" 3072 2 PRO_CPU_NUM,
    .vTaskDelete ]

/-- A task as `xTaskCreatePinnedToCore` was asked to create it. -/
structure TaskCfg where
  entry : Entry
  priority : Nat
  core : Nat
  deriving DecidableEq, Repr

/-- The task a call creates, if it creates one. -/
def Call.created : Call → Option TaskCfg
  | .xTaskCreatePinnedToCore entry _ _ priority core =>
    some { entry := entry, priority := priority, core := core }
  | _ => none

/-- The tasks created by a sequence of calls, in order of creation. -/
def createdTasks (calls : List Call) : List TaskCfg :=
  calls.filterMap Call.created

/-- Whether the call configures or arms the hardware timer. -/
def Call.isTimer : Call → Bool
  | .timerBegin _ _ _ => true
  | .timerAttachInterrupt _ _ => true
  | .timerAlarmWrite _ _ => true
  | .timerAlarmEnable => true
  | _ => false

/-- Tick frequency in Hz of the hardware timer for a base clock of `baseHz`:
the prescaler divides the base clock (line 37: `F_tick = 1MHz`). -/
def tickHz (baseHz : Nat) : Nat := baseHz / timer_divider

/-- Period of the alarm in microseconds for a base clock of `baseHz`: the alarm
fires every `timer_max_count` ticks. -/
def alarmPeriodMicros (baseHz : Nat) : Nat := timer_max_count * 1000000 / tickHz baseHz

/-! ## Invariant -/

/-- The invariant of the system. -/
structure Inv (s : Sys) : Prop where
  lock_dom : s.g.lock = none ∨ s.g.lock = some PRO_CPU_NUM ∨ s.g.lock = some APP_CPU_NUM
  count : s.g.acquires = s.g.releases + (if s.g.lock = none then 0 else 1)
  isr_idle : s.isr.active = false → s.isr.pc = 0
  isr_at : IsrAt s.isr.pc s.isr.timestamp s.isr.trace
  isr_hist : ∀ tr ∈ s.isr.hist, IsrDone tr
  isr_lock : s.g.lock = some APP_CPU_NUM ↔ (s.isr.pc = 2 ∨ s.isr.pc = 3 ∨ s.isr.pc = 4)
  h_active : s.taskH.active = true
  h_at : HAt s.taskH.pc s.taskH.timestamp s.taskH.trace
  h_hist : ∀ tr ∈ s.taskH.hist, HDone tr
  h_lock : s.g.lock = some PRO_CPU_NUM ↔ (s.taskH.pc = 2 ∨ s.taskH.pc = 3)
  l_active : s.taskL.active = true
  l_at : LAt s.taskL.pc s.taskL.timestamp s.taskL.trace
  l_hist : ∀ tr ∈ s.taskL.hist, LDone tr

/-! ## Time and the watchdog -/

/-- The system with time: the untimed state, the time in milliseconds, and the
watchdog.  `fired` is the time of the alarm that started the ISR now running,
`fires` counts those alarms, `hAcq` is the time at which Task H last took the
spinlock and `hHold` the length of its last completed critical section. -/
structure WSys where
  sys : Sys
  now : Nat
  fired : Nat
  fires : Nat
  hAcq : Nat
  hHold : Nat
  reset : Bool
  deriving DecidableEq, Repr

/-- Timed scheduler choices: one millisecond passes, or a context performs its
next statement (statements take no time of their own). -/
inductive WAction where
  | tick
  | act (a : Action)
  deriving DecidableEq, Repr

/-- The timed system after `setup`, at time 0. -/
def winit : WSys :=
  { sys := init, now := 0, fired := 0, fires := 0, hAcq := 0, hHold := 0, reset := false }

/-- Modelled from the spec: the interrupt watchdog is platform behaviour and is
not in `src/`.  Sections 3, 4.2 and 7 give its contract: a countdown of `budget`
that starts when the interrupt handler is entered; if the handler has not
returned when the budget has elapsed, the whole system is reset
(`SYSTEM_RESET`).  The state reached at the reset is kept, so that what had
been emitted can be read off; the restart begins again from `winit`.  The
millisecond clock read by the busy-wait loops is the time `now`. -/
def wstep (budget : Nat) (w : WSys) : WAction → WSys
  | .tick =>
    if w.reset then w
    else if w.sys.isr.active ∧ w.fired + budget ≤ w.now + 1 then
      { w with now := w.now + 1, reset := true }
    else { w with now := w.now + 1 }
  | .act .fire =>
    if w.reset then w
    else if w.sys.isr.active then w
    else { w with sys := step (fun _ => w.now) w.sys .fire, fired := w.now,
                  fires := w.fires + 1 }
  | .act .taskH =>
    if w.reset then w
    else
      { w with
        sys := step (fun _ => w.now) w.sys .taskH,
        hAcq :=
          if w.sys.g.lock ≠ some PRO_CPU_NUM
              ∧ (step (fun _ => w.now) w.sys .taskH).g.lock = some PRO_CPU_NUM
          then w.now else w.hAcq,
        hHold :=
          if w.sys.g.lock = some PRO_CPU_NUM
              ∧ (step (fun _ => w.now) w.sys .taskH).g.lock ≠ some PRO_CPU_NUM
          then w.now - w.hAcq else w.hHold }
  | .act a =>
    if w.reset then w else { w with sys := step (fun _ => w.now) w.sys a }

/-- The timed state reached from `w` under a timed scheduler word. -/
def wrunFrom (budget : Nat) (w : WSys) (sched : List WAction) : WSys :=
  sched.foldl (wstep budget) w

/-- The timed state reached from `winit` under a timed scheduler word. -/
def wrun (budget : Nat) (sched : List WAction) : WSys :=
  wrunFrom budget winit sched

/-- Number of milliseconds that pass in a timed scheduler word. -/
def ticks (sched : List WAction) : Nat :=
  (sched.filter (fun a => decide (a = WAction.tick))).length

/-- Whether a millisecond may pass in state `w` under the timing assumptions:
Task H, when it holds the spinlock, has not yet held it for `hold`
milliseconds; and the ISR, when it runs, is waiting, either at its acquire
for a lock that is taken, or in its busy-wait loop for a clock that has not
reached the bound.  All other statements of the ISR take no time. -/
def tickAllowed (hold : Nat) (w : WSys) : Bool :=
  decide (w.sys.g.lock = some PRO_CPU_NUM → w.now + 1 ≤ w.hAcq + hold)
  && (!w.sys.isr.active ||
      match onTimer.get? w.sys.isr.pc with
      | some .enterCriticalISR => w.sys.g.lock.isSome
      | some (.spin d) => decide (elapsed (readMs (fun _ => w.now) 0) w.sys.isr.timestamp < d)
      | _ => false)

/-- Whether every millisecond of the timed word, run from `w`, passes in a
state in which it is allowed to. -/
def timely (budget hold : Nat) : WSys → List WAction → Bool
  | _, [] => true
  | w, .tick :: rest => tickAllowed hold w && timely budget hold (wstep budget w .tick) rest
  | w, .act a :: rest => timely budget hold (wstep budget w (.act a)) rest

/-- The scenario of the demonstration as a timed word: Task H takes the
spinlock at time 0; the alarm fires `alarmAt` ms later and the ISR prints its
start marker; Task H leaves its critical section `hold` ms after it entered;
the ISR is then given the steps of its whole body, with `work` ms passing
inside its busy-wait. -/
def scenario (alarmAt hold work : Nat) : List WAction :=
  [.act .taskH, .act .taskH]
    ++ List.replicate alarmAt .tick
    ++ [.act .fire, .act .isr]
    ++ List.replicate (hold - alarmAt) .tick
    ++ [.act .taskH, .act .taskH, .act .isr, .act .isr]
    ++ List.replicate work .tick
    ++ [.act .isr, .act .isr, .act .isr]

theorem inv_init : Inv init := by
  constructor <;> simp [init, IsrAt, HAt, LAt, APP_CPU_NUM, PRO_CPU_NUM]

theorem isrWaiting_snoc (t0 : Nat) (rs : List Nat) (r : Nat) :
    isrWaiting t0 rs ++ [.poll r true] = isrWaiting t0 (rs ++ [r]) := by
  simp [isrWaiting, polls]

theorem hWaiting_snoc (t0 : Nat) (rs : List Nat) (r : Nat) :
    hWaiting t0 rs ++ [.poll r false] = hWaiting t0 (rs ++ [r]) := by
  simp [hWaiting, polls]

theorem lWaiting_snoc (t0 : Nat) (rs : List Nat) (r : Nat) :
    lWaiting t0 rs ++ [.poll r false] = lWaiting t0 (rs ++ [r]) := by
  simp [lWaiting, polls]

theorem inv_fire (clock : Nat → Nat) (s : Sys) (h : Inv s) : Inv (step clock s .fire) := by
  obtain ⟨h1, h2, h3, h4, h5, h6, h7, h8, h9, h10, h11, h12, h13⟩ := h
  simp only [step]
  split
  · exact ⟨h1, h2, h3, h4, h5, h6, h7, h8, h9, h10, h11, h12, h13⟩
  · refine ⟨h1, h2, ?_, h4, h5, h6, h7, h8, h9, h10, h11, h12, h13⟩
    simp

theorem inv_isr (clock : Nat → Nat) (s : Sys) (h : Inv s) : Inv (step clock s .isr) := by
  obtain ⟨h1, h2, h3, h4, h5, h6, h7, h8, h9, h10, h11, h12, h13⟩ := h
  simp only [step]
  split
  · obtain ⟨⟨lock, reads, acq, rel⟩, ⟨ia, ipc, its, itr, ih⟩, th, tl⟩ := s
    simp only at *
    rcases ipc with _|_|_|_|_|_|ipc
    · -- print "ISR..."
      have hl : lock ≠ some APP_CPU_NUM := by simp [h6]
      constructor <;> simp_all [stepThread, onTimer, execStmt, finish, IsrAt]
    · -- portENTER_CRITICAL_ISR
      have hl : lock ≠ some APP_CPU_NUM := by simp [h6]
      rcases h1 with h1 | h1 | h1
      · subst h1
        constructor <;> simp_all [stepThread, onTimer, execStmt, finish, IsrAt, APP_CPU_NUM, PRO_CPU_NUM]
      · subst h1
        constructor <;> simp_all [stepThread, onTimer, execStmt, finish, IsrAt, APP_CPU_NUM, PRO_CPU_NUM]
      · exact absurd h1 hl
    · -- stamp
      have hl : lock = some APP_CPU_NUM := by simp [h6]
      subst hl
      constructor
      case isr_at =>
        simp_all [stepThread, onTimer, execStmt, finish, IsrAt, APP_CPU_NUM, PRO_CPU_NUM]
        exact ⟨[], by simp [isrWaiting, polls]⟩
      all_goals simp_all [stepThread, onTimer, execStmt, finish, IsrAt, APP_CPU_NUM, PRO_CPU_NUM]
    · -- spin isr_wait
      have hl : lock = some APP_CPU_NUM := by simp [h6]
      subst hl
      obtain ⟨rs, hrs, hlt⟩ := h4
      subst hrs
      rcases Classical.em (elapsed (readMs clock reads) its < isr_wait) with hc | hc
      · simp only [stepThread, onTimer, execStmt, finish, List.get?, if_pos hc]
        constructor
        case isr_at =>
          simp_all [stepThread, onTimer, execStmt, finish, IsrAt, APP_CPU_NUM, PRO_CPU_NUM]
          refine ⟨rs ++ [readMs clock reads], (isrWaiting_snoc _ _ _), ?_⟩
          intro x hx
          rcases List.mem_append.1 hx with hx | hx
          · exact hlt x hx
          · simp at hx; subst hx; exact hc
        all_goals simp_all [stepThread, onTimer, execStmt, finish, IsrAt, APP_CPU_NUM, PRO_CPU_NUM]
      · simp only [stepThread, onTimer, execStmt, finish, List.get?, if_neg hc]
        constructor
        case isr_at =>
          simp_all [stepThread, onTimer, execStmt, finish, IsrAt, APP_CPU_NUM, PRO_CPU_NUM]
          exact ⟨its, rs, readMs clock reads, rfl, hlt, hc⟩
        all_goals simp_all [stepThread, onTimer, execStmt, finish, IsrAt, APP_CPU_NUM, PRO_CPU_NUM]
    · -- portEXIT_CRITICAL_ISR
      have hl : lock = some APP_CPU_NUM := by simp [h6]
      subst hl
      obtain ⟨t0, rs, r, hrs, hlt, hge⟩ := h4
      subst hrs
      constructor
      case isr_at =>
        simp_all [stepThread, onTimer, execStmt, finish, IsrAt, APP_CPU_NUM, PRO_CPU_NUM]
        exact ⟨t0, rs, r, by simp, hlt, hge⟩
      all_goals simp_all [stepThread, onTimer, execStmt, finish, IsrAt, APP_CPU_NUM, PRO_CPU_NUM]
    · -- println "Finita la ISR"
      have hl : lock ≠ some APP_CPU_NUM := by simp [h6]
      obtain ⟨t0, rs, r, hrs, hlt, hge⟩ := h4
      subst hrs
      constructor
      case isr_hist =>
        simp_all [stepThread, onTimer, execStmt, finish, IsrAt, APP_CPU_NUM, PRO_CPU_NUM]
        exact ⟨t0, rs, r, by simp, hlt, hge⟩
      all_goals simp_all [stepThread, onTimer, execStmt, finish, IsrAt, APP_CPU_NUM, PRO_CPU_NUM]
    · simp [IsrAt] at h4
  · exact ⟨h1, h2, h3, h4, h5, h6, h7, h8, h9, h10, h11, h12, h13⟩

theorem inv_taskH (clock : Nat → Nat) (s : Sys) (h : Inv s) : Inv (step clock s .taskH) := by
  obtain ⟨h1, h2, h3, h4, h5, h6, h7, h8, h9, h10, h11, h12, h13⟩ := h
  simp only [step]
  obtain ⟨⟨lock, reads, acq, rel⟩, ti, ⟨ha, hpc, hts, htr, hh⟩, tl⟩ := s
  simp only at *
  rcases hpc with _|_|_|_|_|_|hpc
  · -- print "spinning..."
    have hl : lock ≠ some PRO_CPU_NUM := by simp [h10]
    constructor <;> simp_all [stepThread, doTaskH, execStmt, finish, HAt]
  · -- portENTER_CRITICAL
    have hl : lock ≠ some PRO_CPU_NUM := by simp [h10]
    rcases h1 with h1 | h1 | h1
    · subst h1
      constructor <;>
        simp_all [stepThread, doTaskH, execStmt, finish, HAt, APP_CPU_NUM, PRO_CPU_NUM]
    · exact absurd h1 hl
    · subst h1
      constructor <;>
        simp_all [stepThread, doTaskH, execStmt, finish, HAt, APP_CPU_NUM, PRO_CPU_NUM]
  · -- println "H"
    have hl : lock = some PRO_CPU_NUM := by simp [h10]
    subst hl
    constructor <;>
      simp_all [stepThread, doTaskH, execStmt, finish, HAt, APP_CPU_NUM, PRO_CPU_NUM]
  · -- portEXIT_CRITICAL
    have hl : lock = some PRO_CPU_NUM := by simp [h10]
    subst hl
    constructor <;>
      simp_all [stepThread, doTaskH, execStmt, finish, HAt, APP_CPU_NUM, PRO_CPU_NUM]
  · -- stamp
    have hl : lock ≠ some PRO_CPU_NUM := by simp [h10]
    constructor
    case h_at =>
      simp_all [stepThread, doTaskH, execStmt, finish, HAt, APP_CPU_NUM, PRO_CPU_NUM]
      exact ⟨[], by simp [hWaiting, polls]⟩
    all_goals simp_all [stepThread, doTaskH, execStmt, finish, HAt, APP_CPU_NUM, PRO_CPU_NUM]
  · -- spin task_wait
    have hl : lock ≠ some PRO_CPU_NUM := by simp [h10]
    obtain ⟨rs, hrs, hlt⟩ := h8
    subst hrs
    rcases Classical.em (elapsed (readMs clock reads) hts < task_wait) with hc | hc
    · simp only [stepThread, doTaskH, execStmt, finish, List.get?, if_pos hc]
      constructor
      case h_at =>
        simp_all [HAt, APP_CPU_NUM, PRO_CPU_NUM]
        refine ⟨rs ++ [readMs clock reads], (hWaiting_snoc _ _ _), ?_⟩
        intro x hx
        rcases List.mem_append.1 hx with hx | hx
        · exact hlt x hx
        · simp at hx; subst hx; exact hc
      all_goals simp_all [HAt, APP_CPU_NUM, PRO_CPU_NUM]
    · simp only [stepThread, doTaskH, execStmt, finish, List.get?, if_neg hc]
      constructor
      case h_hist =>
        simp_all [HAt, APP_CPU_NUM, PRO_CPU_NUM]
        exact ⟨hts, rs, readMs clock reads, rfl, hlt, hc⟩
      all_goals simp_all [HAt, APP_CPU_NUM, PRO_CPU_NUM]
  · simp [HAt] at h8

theorem inv_taskL (clock : Nat → Nat) (s : Sys) (h : Inv s) : Inv (step clock s .taskL) := by
  obtain ⟨h1, h2, h3, h4, h5, h6, h7, h8, h9, h10, h11, h12, h13⟩ := h
  simp only [step]
  split
  · exact ⟨h1, h2, h3, h4, h5, h6, h7, h8, h9, h10, h11, h12, h13⟩
  · rename_i hidle
    have hpc0 : s.isr.pc = 0 := h3 (by simpa using hidle)
    have hl : s.g.lock ≠ some APP_CPU_NUM := by simp [h6, hpc0]
    obtain ⟨⟨lock, reads, acq, rel⟩, ti, th, ⟨la, lpc, lts, ltr, lh⟩⟩ := s
    simp only at *
    rcases lpc with _|_|_|lpc
    · -- println "L"
      constructor <;> simp_all [stepThread, doTaskL, execStmt, finish, LAt]
    · -- stamp
      constructor
      case l_at =>
        simp_all [stepThread, doTaskL, execStmt, finish, LAt]
        exact ⟨[], by simp [lWaiting, polls]⟩
      all_goals simp_all [stepThread, doTaskL, execStmt, finish, LAt]
    · -- spin task_wait
      obtain ⟨rs, hrs, hlt⟩ := h12
      subst hrs
      rcases Classical.em (elapsed (readMs clock reads) lts < task_wait) with hc | hc
      · simp only [stepThread, doTaskL, execStmt, finish, List.get?, if_pos hc]
        constructor
        case l_at =>
          simp_all [LAt]
          refine ⟨rs ++ [readMs clock reads], (lWaiting_snoc _ _ _), ?_⟩
          intro x hx
          rcases List.mem_append.1 hx with hx | hx
          · exact hlt x hx
          · simp at hx; subst hx; exact hc
        all_goals simp_all [LAt]
      · simp only [stepThread, doTaskL, execStmt, finish, List.get?, if_neg hc]
        constructor
        case l_hist =>
          simp_all [LAt]
          exact ⟨lts, rs, readMs clock reads, rfl, hlt, hc⟩
        all_goals simp_all [LAt]
    · simp [LAt] at h12

theorem inv_step (clock : Nat → Nat) (s : Sys) (a : Action) (h : Inv s) :
    Inv (step clock s a) := by
  cases a
  · exact inv_fire clock s h
  · exact inv_isr clock s h
  · exact inv_taskH clock s h
  · exact inv_taskL clock s h

theorem inv_runFrom (clock : Nat → Nat) (sched : List Action) :
    ∀ s, Inv s → Inv (runFrom clock s sched) := by
  induction sched with
  | nil => intro s h; exact h
  | cons a rest ih => intro s h; exact ih _ (inv_step clock s a h)

theorem inv_run (clock : Nat → Nat) (sched : List Action) : Inv (run clock sched) :=
  inv_runFrom clock sched init inv_init

/-! ## Auxiliary facts -/

theorem inCritical_onTimer (pc : Nat) :
    inCritical onTimer pc = true ↔ (pc = 2 ∨ pc = 3 ∨ pc = 4) := by
  rcases pc with _|_|_|_|_|_|_|pc <;> simp [inCritical, onTimer, Stmt.isEnter, Stmt.isExit]

theorem inCritical_doTaskH (pc : Nat) :
    inCritical doTaskH pc = true ↔ (pc = 2 ∨ pc = 3) := by
  rcases pc with _|_|_|_|_|_|_|pc <;> simp [inCritical, doTaskH, Stmt.isEnter, Stmt.isExit]

theorem taskH_pc_lt (s : Sys) (h : Inv s) : s.taskH.pc < doTaskH.length := by
  have h4 := h.h_at
  rcases hp : s.taskH.pc with _|_|_|_|_|_|pc <;> simp [doTaskH]
  simp [hp, HAt] at h4

/-! ## The claims and the lemmas they rest on -/

/-- C1, mutual exclusion: in every state the system reaches under any
interleaving of the timer ISR, Task H and Task L, the ISR and Task H are not
both between their `portENTER_CRITICAL(_ISR)` and their
`portEXIT_CRITICAL(_ISR)`; and each of them is there exactly when the spinlock
is owned by its core. -/
theorem mutual_exclusion (clock : Nat → Nat) (sched : List Action) :
    ¬ (inCritical onTimer (run clock sched).isr.pc = true
        ∧ inCritical doTaskH (run clock sched).taskH.pc = true)
    ∧ (inCritical onTimer (run clock sched).isr.pc = true
        ↔ (run clock sched).g.lock = some APP_CPU_NUM)
    ∧ (inCritical doTaskH (run clock sched).taskH.pc = true
        ↔ (run clock sched).g.lock = some PRO_CPU_NUM) := by
  have h := inv_run clock sched
  have hi := h.isr_lock
  have hh := h.h_lock
  rw [← inCritical_onTimer] at hi
  rw [← inCritical_doTaskH] at hh
  refine ⟨?_, hi.symm, hh.symm⟩
  rintro ⟨h1, h2⟩
  have e1 := hi.2 h1
  have e2 := hh.2 h2
  rw [e1] at e2
  simp [APP_CPU_NUM, PRO_CPU_NUM] at e2

theorem polls_no_lock (b : Bool) (rs : List Nat) :
    ∀ e ∈ polls b rs, e.isAcquire = false ∧ e.isRelease = false := by
  intro e he
  simp only [polls, List.mem_map] at he
  obtain ⟨r, _, rfl⟩ := he
  simp [Event.isAcquire, Event.isRelease]

theorem polls_filter_acquire (b : Bool) (rs : List Nat) :
    (polls b rs).filter Event.isAcquire = [] := by
  rw [List.filter_eq_nil_iff]
  intro e he
  simp [(polls_no_lock b rs e he).1]

theorem polls_filter_release (b : Bool) (rs : List Nat) :
    (polls b rs).filter Event.isRelease = [] := by
  rw [List.filter_eq_nil_iff]
  intro e he
  simp [(polls_no_lock b rs e he).2]

theorem isrDone_once (tr : List Event) (h : IsrDone tr) :
    (tr.filter Event.isAcquire).length = 1 ∧ (tr.filter Event.isRelease).length = 1
      ∧ AcquireThenRelease tr := by
  obtain ⟨t0, rs, r, rfl, -, -⟩ := h
  refine ⟨?_, ?_, ?_⟩
  · simp [isrWaiting, List.filter_cons, polls_filter_acquire, Event.isAcquire]
  · simp [isrWaiting, List.filter_cons, polls_filter_release, Event.isRelease]
  · refine ⟨[.emit "ISR..." false], .stamp t0 true :: polls true rs ++ [.poll r true],
      [.emit ("Finita la ISR" ++ "\r\n") false], by simp [isrWaiting], ?_⟩
    intro e he
    simp only [List.mem_append, List.mem_cons, List.mem_singleton, List.not_mem_nil,
      or_false] at he
    rcases he with (rfl | (rfl | he) | rfl) | rfl
    · simp [Event.isAcquire, Event.isRelease]
    · simp [Event.isAcquire, Event.isRelease]
    · exact polls_no_lock _ _ e he
    · simp [Event.isAcquire, Event.isRelease]
    · simp [Event.isAcquire, Event.isRelease]

theorem hDone_once (tr : List Event) (h : HDone tr) :
    (tr.filter Event.isAcquire).length = 1 ∧ (tr.filter Event.isRelease).length = 1
      ∧ AcquireThenRelease tr := by
  obtain ⟨t0, rs, r, rfl, -, -⟩ := h
  refine ⟨?_, ?_, ?_⟩
  · simp [hWaiting, List.filter_cons, polls_filter_acquire, Event.isAcquire]
  · simp [hWaiting, List.filter_cons, polls_filter_release, Event.isRelease]
  · refine ⟨[.emit "spinning..." false], [.emit ("H" ++ "\r\n") true],
      .stamp t0 false :: polls false rs ++ [.poll r false], by simp [hWaiting], ?_⟩
    intro e he
    simp only [List.mem_append, List.mem_cons, List.mem_singleton, List.not_mem_nil,
      or_false] at he
    rcases he with (rfl | rfl) | (rfl | he) | rfl
    · simp [Event.isAcquire, Event.isRelease]
    · simp [Event.isAcquire, Event.isRelease]
    · simp [Event.isAcquire, Event.isRelease]
    · exact polls_no_lock _ _ e he
    · simp [Event.isAcquire, Event.isRelease]

theorem step_taskL_frame (clock : Nat → Nat) (s : Sys) :
    (step clock s .taskL).g.lock = s.g.lock
      ∧ (step clock s .taskL).g.acquires = s.g.acquires
      ∧ (step clock s .taskL).g.releases = s.g.releases := by
  simp only [step]
  split
  · simp
  · rcases hp : s.taskL.pc with _|_|_|pc <;>
      simp [stepThread, doTaskL, execStmt, hp]

theorem runFrom_taskL_frame (clock : Nat → Nat) (n : Nat) :
    ∀ s : Sys, (runFrom clock s (List.replicate n .taskL)).g.lock = s.g.lock
      ∧ (runFrom clock s (List.replicate n .taskL)).g.acquires = s.g.acquires
      ∧ (runFrom clock s (List.replicate n .taskL)).g.releases = s.g.releases := by
  induction n with
  | zero => intro s; simp [runFrom]
  | succ n ih =>
    intro s
    have h1 := ih (step clock s .taskL)
    have h2 := step_taskL_frame clock s
    simp only [runFrom, List.replicate_succ, List.foldl_cons] at h1 ⊢
    exact ⟨h1.1.trans h2.1, h1.2.1.trans h2.2.1, h1.2.2.trans h2.2.2⟩

/-- C2, lock symmetry: the trace of every completed invocation of `onTimer`
and of every completed round of `doTaskH` holds exactly one acquire and one
release, the acquire first; the ISR is never inside its critical section
without an invocation in progress; the acquires so far are the releases so far
plus the contexts now inside their critical sections; and whenever the ISR has
returned and Task H stands at the top of its loop, acquires equal releases and
the lock is free. -/
theorem lock_symmetry (clock : Nat → Nat) (sched : List Action) :
    (∀ tr ∈ (run clock sched).isr.hist,
        (tr.filter Event.isAcquire).length = 1 ∧ (tr.filter Event.isRelease).length = 1
          ∧ AcquireThenRelease tr)
    ∧ (∀ tr ∈ (run clock sched).taskH.hist,
        (tr.filter Event.isAcquire).length = 1 ∧ (tr.filter Event.isRelease).length = 1
          ∧ AcquireThenRelease tr)
    ∧ (inCritical onTimer (run clock sched).isr.pc = true → (run clock sched).isr.active = true)
    ∧ (run clock sched).g.acquires = (run clock sched).g.releases
        + (if inCritical onTimer (run clock sched).isr.pc = true then 1 else 0)
        + (if inCritical doTaskH (run clock sched).taskH.pc = true then 1 else 0)
    ∧ ((run clock sched).isr.active = false → (run clock sched).taskH.pc = 0 →
        (run clock sched).g.acquires = (run clock sched).g.releases
          ∧ (run clock sched).g.lock = none) := by
  have h := inv_run clock sched
  have hi := h.isr_lock
  have hh := h.h_lock
  have hc := h.count
  have hd := h.lock_dom
  rw [← inCritical_onTimer] at hi
  rw [← inCritical_doTaskH] at hh
  refine ⟨fun tr htr => isrDone_once tr (h.isr_hist tr htr),
    fun tr htr => hDone_once tr (h.h_hist tr htr), ?_, ?_, ?_⟩
  · intro hin
    by_contra hact
    have hpc := h.isr_idle (by simpa using hact)
    rw [hpc] at hin
    simp [inCritical_onTimer] at hin
  · rcases hd with hd | hd | hd
    · have n1 : ¬ inCritical onTimer (run clock sched).isr.pc = true := by
        rw [← hi, hd]; simp
      have n2 : ¬ inCritical doTaskH (run clock sched).taskH.pc = true := by
        rw [← hh, hd]; simp
      rw [hc, if_neg n1, if_neg n2, if_pos hd]
    · have n1 : ¬ inCritical onTimer (run clock sched).isr.pc = true := by
        rw [← hi, hd]; simp [APP_CPU_NUM, PRO_CPU_NUM]
      have n2 : inCritical doTaskH (run clock sched).taskH.pc = true := hh.1 hd
      rw [hc, if_neg n1, if_pos n2, if_neg (by rw [hd]; simp)]
    · have n1 : inCritical onTimer (run clock sched).isr.pc = true := hi.1 hd
      have n2 : ¬ inCritical doTaskH (run clock sched).taskH.pc = true := by
        rw [← hh, hd]; simp [APP_CPU_NUM, PRO_CPU_NUM]
      rw [hc, if_pos n1, if_neg n2, if_neg (by rw [hd]; simp)]
  · intro hact hpc
    have hpi := h.isr_idle hact
    have hnone : (run clock sched).g.lock = none := by
      rcases hd with hd | hd | hd
      · exact hd
      · have := hh.1 hd
        rw [hpc] at this
        simp [inCritical_doTaskH] at this
      · have := hi.1 hd
        rw [hpi] at this
        simp [inCritical_onTimer] at this
    exact ⟨by rw [hc, if_pos hnone]; rfl, hnone⟩

/-- C5, sequence of the timer ISR: the trace of every completed invocation of
`onTimer` is: the start marker "ISR..." written without the lock, the acquire,
the timestamp and all readings of the busy-wait taken with the lock held, every
reading but the last short of `isr_wait` and the last one reaching it, the
release, and the end marker "Finita la ISR" written without the lock. -/
theorem onTimer_sequence (clock : Nat → Nat) (sched : List Action) (tr : List Event)
    (h : tr ∈ (run clock sched).isr.hist) :
    ∃ t0 rs r,
      tr = [Event.emit "ISR..." false, Event.acquire, Event.stamp t0 true]
            ++ polls true rs
            ++ [Event.poll r true, Event.release, Event.emit ("Finita la ISR" ++ "\r\n") false]
        ∧ (∀ x ∈ rs, elapsed x t0 < isr_wait) ∧ isr_wait ≤ elapsed r t0 :=
  (inv_run clock sched).isr_hist tr h

/-- C6, loop of Task H: the trace of every completed round of `doTaskH` is:
the marker "spinning..." written without the lock, the acquire, the marker "H"
written with the lock held, the release, then the timestamp and the readings of
the busy-wait for `task_wait`, all taken without the lock; whenever Task H
stands at its timestamp or at its busy-wait, the spinlock is not owned by its
core; and Task H always has a next statement in its loop body. -/
theorem doTaskH_loop (clock : Nat → Nat) (sched : List Action) :
    (∀ tr ∈ (run clock sched).taskH.hist, ∃ t0 rs r,
      tr = [Event.emit "spinning..." false, Event.acquire, Event.emit ("H" ++ "\r\n") true,
              Event.release, Event.stamp t0 false]
            ++ polls false rs ++ [Event.poll r false]
        ∧ (∀ x ∈ rs, elapsed x t0 < task_wait) ∧ task_wait ≤ elapsed r t0)
    ∧ (∀ st, doTaskH.get? (run clock sched).taskH.pc = some st →
        (st = Stmt.stamp ∨ st = Stmt.spin task_wait) →
        (run clock sched).g.lock ≠ some PRO_CPU_NUM)
    ∧ ((run clock sched).taskH.active = true
        ∧ (run clock sched).taskH.pc < doTaskH.length) := by
  have h := inv_run clock sched
  refine ⟨fun tr htr => h.h_hist tr htr, ?_, h.h_active, taskH_pc_lt _ h⟩
  intro st hst hs hl
  rcases h.h_lock.1 hl with hp | hp <;> rw [hp] at hst <;> simp [doTaskH] at hst <;>
    subst hst <;> simp at hs

/-- C7, Task L leaves the spinlock alone: from every state, whatever the lock
is, any number of steps of Task L leaves the lock and the counts of acquires
and releases as they were; and the trace of every completed round of `doTaskL`
is the marker "L", the timestamp and the readings of the busy-wait for
`task_wait`. -/
theorem doTaskL_frame (clock : Nat → Nat) :
    (∀ (s : Sys) (n : Nat),
        (runFrom clock s (List.replicate n Action.taskL)).g.lock = s.g.lock
        ∧ (runFrom clock s (List.replicate n Action.taskL)).g.acquires = s.g.acquires
        ∧ (runFrom clock s (List.replicate n Action.taskL)).g.releases = s.g.releases)
    ∧ (∀ sched, ∀ tr ∈ (run clock sched).taskL.hist, ∃ t0 rs r,
        tr = [Event.emit ("L" ++ "\r\n") false, Event.stamp t0 false]
              ++ polls false rs ++ [Event.poll r false]
          ∧ (∀ x ∈ rs, elapsed x t0 < task_wait) ∧ task_wait ≤ elapsed r t0) :=
  ⟨fun s n => runFrom_taskL_frame clock n s,
   fun sched tr htr => (inv_run clock sched).l_hist tr htr⟩

/-- C8, task wiring: `setup` creates exactly two tasks, Task L (`doTaskL`,
priority 1, core `APP_CPU_NUM` = 1) and Task H (`doTaskH`, priority 2, core
`PRO_CPU_NUM` = 0), so Task H has the higher priority and the other core; the
four timer calls, ending with `timerAlarmEnable`, come in the first eight calls,
the two creations after them, and the last call is `vTaskDelete(NULL)`. -/
theorem setup_wiring :
    createdTasks setup
        = [ { entry := Entry.doTaskL, priority := 1, core := APP_CPU_NUM },
            { entry := Entry.doTaskH, priority := 2, core := PRO_CPU_NUM } ]
    ∧ PRO_CPU_NUM = 0 ∧ APP_CPU_NUM = 1
    ∧ (∀ h ∈ createdTasks setup, ∀ l ∈ createdTasks setup,
        h.entry = Entry.doTaskH → l.entry = Entry.doTaskL →
          l.priority < h.priority ∧ h.core ≠ l.core)
    ∧ (setup.take 8).filter Call.isTimer
        = [ Call.timerBegin 0 timer_divider true,
            Call.timerAttachInterrupt Entry.onTimer true,
            Call.timerAlarmWrite timer_max_count true,
            Call.timerAlarmEnable ]
    ∧ setup.drop 8
        = [ Call.xTaskCreatePinnedToCore Entry.doTaskL "Task L" 3072 1 APP_CPU_NUM,
            Call.xTaskCreatePinnedToCore Entry.doTaskH "Task H" 3072 2 PRO_CPU_NUM,
            Call.vTaskDelete ]
    ∧ setup.getLast? = some Call.vTaskDelete := by
  decide

/-- C9, default timing: the alarm value is 2,000,000 with auto-reload, the
prescaler is 80, so an 80 MHz base clock gives a tick of exactly 1 MHz and an
alarm period of exactly 2,000,000 microseconds, which is 2 seconds;
`task_wait` is 100 and `isr_wait` is 20, and `isr_wait < task_wait <` period. -/
theorem default_timing :
    timer_max_count = 2000000 ∧ timer_divider = 80
    ∧ Call.timerBegin 0 timer_divider true ∈ setup
    ∧ Call.timerAlarmWrite timer_max_count true ∈ setup
    ∧ 80000000 % timer_divider = 0 ∧ tickHz 80000000 = 1000000
    ∧ timer_max_count * 1000000 % tickHz 80000000 = 0
    ∧ alarmPeriodMicros 80000000 = 2000000 ∧ alarmPeriodMicros 80000000 = 2 * 1000000
    ∧ task_wait = 100 ∧ isr_wait = 20
    ∧ isr_wait < task_wait ∧ task_wait * 1000 < alarmPeriodMicros 80000000 := by
  decide

theorem tickModulus_eq : tickModulus = 4294967296 := by decide

theorem readMs_lt (clock : Nat → Nat) (i : Nat) : readMs clock i < tickModulus :=
  Nat.mod_lt _ (by decide)

theorem elapsed_of_le (r t0 : Nat) (hr : r < tickModulus) (h : t0 ≤ r) :
    elapsed r t0 = r - t0 := by
  simp only [elapsed, tickModulus_eq] at *
  omega

theorem elapsed_wrap (t0 e : Nat) (ht : t0 < tickModulus) (he : e < tickModulus) :
    elapsed ((t0 + e) % tickModulus) t0 = e := by
  simp only [elapsed, tickModulus_eq] at *
  omega

theorem busyWait_eq_some (clock : Nat → Nat) (t0 w : Nat) :
    ∀ fuel i k, busyWait clock t0 w fuel i = some k ↔
      i ≤ k ∧ k < i + fuel ∧ w ≤ elapsed (readMs clock k) t0
        ∧ ∀ j, i ≤ j → j < k → elapsed (readMs clock j) t0 < w := by
  intro fuel
  induction fuel with
  | zero =>
    intro i k
    simp only [busyWait]
    constructor
    · intro h; cases h
    · rintro ⟨h1, h2, -, -⟩; omega
  | succ fuel ih =>
    intro i k
    simp only [busyWait]
    by_cases hc : elapsed (readMs clock i) t0 < w
    · rw [if_pos hc, ih]
      constructor
      · rintro ⟨h1, h2, h3, h4⟩
        refine ⟨by omega, by omega, h3, ?_⟩
        intro j hj hjk
        rcases Nat.eq_or_lt_of_le hj with rfl | hlt
        · exact hc
        · exact h4 j hlt hjk
      · rintro ⟨h1, h2, h3, h4⟩
        have hne : i ≠ k := by
          rintro rfl
          omega
        exact ⟨by omega, by omega, h3, fun j hj hjk => h4 j (by omega) hjk⟩
    · rw [if_neg hc]
      constructor
      · intro h
        cases h
        exact ⟨le_refl _, by omega, by omega, fun j hj hjk => by omega⟩
      · rintro ⟨h1, h2, h3, h4⟩
        rcases Nat.eq_or_lt_of_le h1 with rfl | hlt
        · rfl
        · exact absurd (h4 i (le_refl _) hlt) hc

/-- C10, exit of the busy-wait: for every timestamp `t0`, bound `w` and
sequence of readings, the loop exits at reading `k` exactly when `k` is the
first reading whose 32-bit difference to `t0` reaches `w`; it exits at all
exactly when some reading reaches the bound; it never exits when the clock
stands still from some reading on without having reached the bound; under a
non-decreasing clock the exit reading is at least `t0 + w`; and the 32-bit
difference is the true elapsed time `e` also when `t0 + e` wraps past `2 ^ 32`. -/
theorem busyWait_exit (clock : Nat → Nat) (t0 w : Nat) :
    (∀ fuel k, busyWait clock t0 w fuel 0 = some k ↔
        k < fuel ∧ w ≤ elapsed (readMs clock k) t0
          ∧ ∀ j, j < k → elapsed (readMs clock j) t0 < w)
    ∧ ((∃ fuel k, busyWait clock t0 w fuel 0 = some k)
        ↔ ∃ k, w ≤ elapsed (readMs clock k) t0)
    ∧ (∀ n, (∀ i, n ≤ i → readMs clock i = readMs clock n) →
        (∀ j, j ≤ n → elapsed (readMs clock j) t0 < w) →
        ∀ fuel, busyWait clock t0 w fuel 0 = none)
    ∧ (t0 ≤ readMs clock 0 → (∀ i, readMs clock i ≤ readMs clock (i + 1)) →
        ∀ fuel k, busyWait clock t0 w fuel 0 = some k → t0 + w ≤ readMs clock k)
    ∧ (∀ e, t0 < tickModulus → e < tickModulus → elapsed ((t0 + e) % tickModulus) t0 = e) := by
  have key : ∀ fuel k, busyWait clock t0 w fuel 0 = some k ↔
      k < fuel ∧ w ≤ elapsed (readMs clock k) t0
        ∧ ∀ j, j < k → elapsed (readMs clock j) t0 < w := by
    intro fuel k
    rw [busyWait_eq_some]
    constructor
    · rintro ⟨-, h2, h3, h4⟩
      exact ⟨by omega, h3, fun j hj => h4 j (Nat.zero_le _) hj⟩
    · rintro ⟨h2, h3, h4⟩
      exact ⟨Nat.zero_le _, by omega, h3, fun j _ hj => h4 j hj⟩
  refine ⟨key, ?_, ?_, ?_, fun e ht he => elapsed_wrap t0 e ht he⟩
  · constructor
    · rintro ⟨fuel, k, h⟩
      exact ⟨k, ((key fuel k).1 h).2.1⟩
    · rintro ⟨k, hk⟩
      classical
      have hex : ∃ k, w ≤ elapsed (readMs clock k) t0 := ⟨k, hk⟩
      refine ⟨Nat.find hex + 1, Nat.find hex, (key _ _).2 ⟨Nat.lt_succ_self _, Nat.find_spec hex, ?_⟩⟩
      intro j hj
      exact Nat.lt_of_not_le (Nat.find_min hex hj)
  · intro n hstop hlow fuel
    have hall : ∀ j, elapsed (readMs clock j) t0 < w := by
      intro j
      rcases Nat.le_total j n with hj | hj
      · exact hlow j hj
      · rw [hstop j hj]; exact hlow n (le_refl _)
    cases hb : busyWait clock t0 w fuel 0 with
    | none => rfl
    | some k =>
      have := ((key fuel k).1 hb).2.1
      have := hall k
      omega
  · intro h0 hmono fuel k hb
    have hge : ∀ i, t0 ≤ readMs clock i := by
      intro i
      induction i with
      | zero => exact h0
      | succ i ih => exact le_trans ih (hmono i)
    have hk := ((key fuel k).1 hb).2.1
    rw [elapsed_of_le _ _ (readMs_lt clock k) (hge k)] at hk
    have := hge k
    omega


/-- Witness of C2: one completed invocation of `onTimer` followed by one
completed round of `doTaskH`. -/
theorem lock_symmetry_witness :
    (run (fun i => 50 * i)
        (Action.fire :: List.replicate 6 Action.isr ++ List.replicate 7 Action.taskH)).isr.hist
      ≠ []
    ∧ (run (fun i => 50 * i)
        (Action.fire :: List.replicate 6 Action.isr ++ List.replicate 7 Action.taskH)).taskH.hist
      ≠ []
    ∧ (run (fun i => 50 * i)
        (Action.fire :: List.replicate 6 Action.isr ++ List.replicate 7 Action.taskH)).g.acquires
      = 2
    ∧ ((run (fun i => 50 * i)
        (Action.fire :: List.replicate 6 Action.isr ++ List.replicate 7 Action.taskH)).g.acquires
      = (run (fun i => 50 * i)
        (Action.fire :: List.replicate 6 Action.isr ++ List.replicate 7 Action.taskH)).g.releases
      ∧ (run (fun i => 50 * i)
        (Action.fire :: List.replicate 6 Action.isr ++ List.replicate 7 Action.taskH)).g.lock
      = none) :=
  ⟨by decide, by decide, by decide,
    (lock_symmetry (fun i => 50 * i)
      (Action.fire :: List.replicate 6 Action.isr ++ List.replicate 7 Action.taskH)).2.2.2.2
      (by decide) (by decide)⟩

/-- Witness of C5: the timer fires while Task H is inside its critical section;
the ISR waits for the lock, gets it after Task H has left, and completes. -/
theorem onTimer_sequence_witness :
    [Event.emit "ISR..." false, Event.acquire, Event.stamp 0 true, Event.poll 7 true,
      Event.poll 14 true, Event.poll 21 true, Event.release,
      Event.emit "Finita la ISR\r\n" false]
      ∈ (run (fun i => 7 * i)
          ([Action.taskH, Action.taskH, Action.fire, Action.isr, Action.isr, Action.isr,
            Action.taskH, Action.taskH] ++ List.replicate 7 Action.isr)).isr.hist
    ∧ ∃ t0 rs r,
      [Event.emit "ISR..." false, Event.acquire, Event.stamp 0 true, Event.poll 7 true,
        Event.poll 14 true, Event.poll 21 true, Event.release,
        Event.emit "Finita la ISR\r\n" false]
        = [Event.emit "ISR..." false, Event.acquire, Event.stamp t0 true]
            ++ polls true rs
            ++ [Event.poll r true, Event.release, Event.emit ("Finita la ISR" ++ "\r\n") false]
        ∧ (∀ x ∈ rs, elapsed x t0 < isr_wait) ∧ isr_wait ≤ elapsed r t0 :=
  ⟨by decide,
    onTimer_sequence (fun i => 7 * i)
      ([Action.taskH, Action.taskH, Action.fire, Action.isr, Action.isr, Action.isr,
        Action.taskH, Action.taskH] ++ List.replicate 7 Action.isr) _ (by decide)⟩

/-- Witness of C6: one completed round of `doTaskH`. -/
theorem doTaskH_loop_witness :
    [Event.emit "spinning..." false, Event.acquire, Event.emit "H\r\n" true, Event.release,
      Event.stamp 0 false, Event.poll 50 false, Event.poll 100 false]
      ∈ (run (fun i => 50 * i) (List.replicate 7 Action.taskH)).taskH.hist
    ∧ ∃ t0 rs r,
      [Event.emit "spinning..." false, Event.acquire, Event.emit "H\r\n" true, Event.release,
        Event.stamp 0 false, Event.poll 50 false, Event.poll 100 false]
        = [Event.emit "spinning..." false, Event.acquire, Event.emit ("H" ++ "\r\n") true,
              Event.release, Event.stamp t0 false]
            ++ polls false rs ++ [Event.poll r false]
        ∧ (∀ x ∈ rs, elapsed x t0 < task_wait) ∧ task_wait ≤ elapsed r t0 :=
  ⟨by decide,
    (doTaskH_loop (fun i => 50 * i) (List.replicate 7 Action.taskH)).1 _ (by decide)⟩

/-- Witness of C7: Task L runs four statements while Task H holds the lock. -/
theorem doTaskL_frame_witness :
    (run (fun i => 50 * i) [Action.taskH, Action.taskH]).g.lock = some PRO_CPU_NUM
    ∧ (runFrom (fun i => 50 * i) (run (fun i => 50 * i) [Action.taskH, Action.taskH])
        (List.replicate 4 Action.taskL)).taskL.hist ≠ []
    ∧ (runFrom (fun i => 50 * i) (run (fun i => 50 * i) [Action.taskH, Action.taskH])
        (List.replicate 4 Action.taskL)).g.lock
      = (run (fun i => 50 * i) [Action.taskH, Action.taskH]).g.lock :=
  ⟨by decide, by decide,
    ((doTaskL_frame (fun i => 50 * i)).1
      (run (fun i => 50 * i) [Action.taskH, Action.taskH]) 4).1⟩

/-- Witness of C10: the tick counter wraps between the timestamp and the exit. -/
theorem busyWait_exit_witness :
    busyWait (fun i => 4294967290 + 5 * i) 4294967290 isr_wait 10 0 = some 4
    ∧ readMs (fun i => 4294967290 + 5 * i) 4 = 14
    ∧ (4 < 10 ∧ isr_wait ≤ elapsed (readMs (fun i => 4294967290 + 5 * i) 4) 4294967290
        ∧ ∀ j, j < 4 → elapsed (readMs (fun i => 4294967290 + 5 * i) j) 4294967290 < isr_wait) :=
  ⟨by decide, by decide,
    ((busyWait_exit (fun i => 4294967290 + 5 * i) 4294967290 isr_wait).1 10 4).1 (by decide)⟩

/-- While the lock is held, a context standing at `portENTER_CRITICAL_ISR`
makes no progress, however many steps it is given. -/
theorem isr_blocked (clock : Nat → Nat) (s : Sys) (c : Nat)
    (ha : s.isr.active = true) (hpc : s.isr.pc = 1) (hl : s.g.lock = some c) (n : Nat) :
    runFrom clock s (List.replicate n Action.isr) = s := by
  induction n with
  | zero => rfl
  | succ n ih =>
    have hs : step clock s Action.isr = s := by
      obtain ⟨⟨lock, reads, acq, rel⟩, ⟨ia, ipc, its, itr, ih⟩, th, tl⟩ := s
      simp only at ha hpc hl
      subst ha hpc hl
      simp [step, stepThread, onTimer, execStmt, finish]
    simp only [runFrom, List.replicate_succ, List.foldl_cons, hs]
    exact ih

/-- The contended state is reachable: the timer fires while Task H is inside
its critical section, and the ISR has printed its start marker and stands at
its acquire. -/
theorem contention_reachable :
    (run (fun i => 7 * i) [Action.taskH, Action.taskH, Action.fire, Action.isr]).g.lock
      = some PRO_CPU_NUM
    ∧ (run (fun i => 7 * i) [Action.taskH, Action.taskH, Action.fire, Action.isr]).isr.active
      = true
    ∧ (run (fun i => 7 * i) [Action.taskH, Action.taskH, Action.fire, Action.isr]).isr.pc = 1
    ∧ (run (fun i => 7 * i) [Action.taskH, Action.taskH, Action.fire, Action.isr]).isr.trace
      = [Event.emit "ISR..." false] := by
  decide

/-- The busy-wait of `onTimer`, run by the system, is the loop `busyWait`: if
the loop started at the next reading exits at reading `k`, then the ISR, given
one step per reading, has left its loop right after reading `k`. -/
theorem isr_spin_busyWait (clock : Nat → Nat) :
    ∀ (fuel : Nat) (s : Sys) (k : Nat), s.isr.active = true → s.isr.pc = 3 →
      busyWait clock s.isr.timestamp isr_wait fuel s.g.reads = some k →
      (runFrom clock s (List.replicate (k + 1 - s.g.reads) Action.isr)).isr.pc = 4
        ∧ (runFrom clock s (List.replicate (k + 1 - s.g.reads) Action.isr)).g.reads = k + 1 := by
  intro fuel
  induction fuel with
  | zero => intro s k _ _ hb; simp [busyWait] at hb
  | succ fuel ih =>
    intro s k ha hpc hb
    have hk := (busyWait_eq_some clock s.isr.timestamp isr_wait (fuel + 1) s.g.reads k).1 hb
    obtain ⟨⟨lock, reads, acq, rel⟩, ⟨ia, ipc, its, itr, ihist⟩, th, tl⟩ := s
    simp only at ha hpc hb hk ⊢
    subst ha hpc
    simp only [busyWait] at hb
    by_cases hc : elapsed (readMs clock reads) its < isr_wait
    · rw [if_pos hc] at hb
      have hne : reads ≠ k := by
        rintro rfl
        omega
      have hlen : k + 1 - reads = (k + 1 - (reads + 1)) + 1 := by omega
      rw [hlen, List.replicate_succ]
      simp only [runFrom, List.foldl_cons]
      have hstep : step clock
          { g := { lock := lock, reads := reads, acquires := acq, releases := rel },
            isr := { active := true, pc := 3, timestamp := its, trace := itr, hist := ihist },
            taskH := th, taskL := tl } Action.isr
          = { g := { lock := lock, reads := reads + 1, acquires := acq, releases := rel },
              isr := { active := true, pc := 3, timestamp := its,
                       trace := itr ++ [Event.poll (readMs clock reads)
                                  (decide (lock = some APP_CPU_NUM))],
                       hist := ihist },
              taskH := th, taskL := tl } := by
        simp [step, stepThread, onTimer, execStmt, finish, hc]
      rw [hstep]
      exact ih _ k rfl rfl hb
    · rw [if_neg hc] at hb
      cases hb
      simp [runFrom, step, stepThread, onTimer, execStmt, finish, hc]

/-! ## Time and the watchdog: the timed invariant -/

theorem inv_wstep (budget : Nat) (w : WSys) (a : WAction) (h : Inv w.sys) :
    Inv (wstep budget w a).sys := by
  cases a with
  | tick =>
    simp only [wstep]
    split
    · exact h
    · split <;> exact h
  | act a =>
    cases a <;> simp only [wstep] <;> split <;> try exact h
    · split
      · exact h
      · exact inv_step (fun _ => w.now) w.sys Action.fire h
    · exact inv_step (fun _ => w.now) w.sys Action.isr h
    · exact inv_step (fun _ => w.now) w.sys Action.taskH h
    · exact inv_step (fun _ => w.now) w.sys Action.taskL h

theorem inv_wrunFrom (budget : Nat) (sched : List WAction) :
    ∀ w : WSys, Inv w.sys → Inv (wrunFrom budget w sched).sys := by
  induction sched with
  | nil => intro w h; exact h
  | cons a rest ih => intro w h; exact ih _ (inv_wstep budget w a h)

theorem inv_wrun (budget : Nat) (sched : List WAction) : Inv (wrun budget sched).sys :=
  inv_wrunFrom budget sched winit inv_init

theorem wstep_reset (budget : Nat) (w : WSys) (a : WAction) (h : w.reset = true) :
    wstep budget w a = w := by
  cases a with
  | tick => simp [wstep, h]
  | act a => cases a <;> simp [wstep, h]

theorem wrunFrom_reset (budget : Nat) (sched : List WAction) :
    ∀ w : WSys, w.reset = true → wrunFrom budget w sched = w := by
  induction sched with
  | nil => intro w _; rfl
  | cons a rest ih =>
    intro w h
    simp only [wrunFrom, List.foldl_cons]
    rw [wstep_reset budget w a h]
    exact ih w h

theorem ticks_cons_tick (rest : List WAction) : ticks (WAction.tick :: rest) = ticks rest + 1 := by
  simp [ticks]

theorem ticks_cons_act (a : Action) (rest : List WAction) :
    ticks (WAction.act a :: rest) = ticks rest := by
  simp [ticks]

theorem blocked_until_reset (budget : Nat) :
    ∀ (post : List WAction) (w : WSys),
      w.reset = false → w.sys.isr.active = true → w.sys.isr.pc = 1 →
      w.now < w.fired + budget →
      (∀ p ∈ post.inits, (wrunFrom budget w p).reset = false →
          (wrunFrom budget w p).sys.g.lock = some PRO_CPU_NUM) →
      w.fired + budget ≤ w.now + ticks post →
      (wrunFrom budget w post).reset = true
        ∧ (wrunFrom budget w post).now = w.fired + budget
        ∧ (wrunFrom budget w post).sys.isr = w.sys.isr := by
  intro post
  induction post with
  | nil =>
    intro w _ _ _ hlt _ hti
    simp [ticks] at hti
    omega
  | cons a rest ih =>
    intro w hr hact hpc hlt hkeep hti
    have hlock : w.sys.g.lock = some PRO_CPU_NUM :=
      hkeep [] ((List.mem_inits _ _).2 List.nil_prefix) hr
    have hshift : ∀ p ∈ rest.inits,
        (wrunFrom budget (wstep budget w a) p).reset = false →
          (wrunFrom budget (wstep budget w a) p).sys.g.lock = some PRO_CPU_NUM := by
      intro p hp
      have := hkeep (a :: p)
        ((List.mem_inits _ _).2 (List.cons_prefix_cons.2 ⟨rfl, (List.mem_inits _ _).1 hp⟩))
      simpa [wrunFrom] using this
    show (wrunFrom budget (wstep budget w a) rest).reset = true
        ∧ (wrunFrom budget (wstep budget w a) rest).now = w.fired + budget
        ∧ (wrunFrom budget (wstep budget w a) rest).sys.isr = w.sys.isr
    cases a with
    | tick =>
      rw [ticks_cons_tick] at hti
      by_cases hexp : w.fired + budget ≤ w.now + 1
      · have hw : wstep budget w WAction.tick = { w with now := w.now + 1, reset := true } := by
          simp [wstep, hr, hact, hexp]
        rw [hw, wrunFrom_reset budget rest _ rfl]
        exact ⟨rfl, by simp only; omega, rfl⟩
      · have hw : wstep budget w WAction.tick = { w with now := w.now + 1 } := by
          simp [wstep, hr, hact, hexp]
        rw [hw] at hshift ⊢
        exact ih { w with now := w.now + 1 } hr hact hpc (by simp only; omega) hshift
          (by simp only; omega)
    | act a =>
      rw [ticks_cons_act] at hti
      cases a with
      | fire =>
        have hw : wstep budget w (WAction.act Action.fire) = w := by
          simp [wstep, hr, hact]
        rw [hw] at hshift ⊢
        exact ih w hr hact hpc hlt hshift hti
      | isr =>
        have hs : step (fun _ => w.now) w.sys Action.isr = w.sys := by
          obtain ⟨⟨⟨lock, reads, acq, rel⟩, ⟨ia, ipc, its, itr, ih⟩, th, tl⟩, now, fired, fires,
            hAcq, hHold, reset⟩ := w
          simp only at hact hpc hlock
          subst hact hpc hlock
          simp [step, stepThread, onTimer, execStmt, finish]
        have hw : wstep budget w (WAction.act Action.isr) = w := by
          rcases w with ⟨sys, now, fired, fires, hAcq, hHold, reset⟩
          simp only at hr hs
          subst hr
          simp [wstep, hs]
        rw [hw] at hshift ⊢
        exact ih w hr hact hpc hlt hshift hti
      | taskL =>
        have hs : step (fun _ => w.now) w.sys Action.taskL = w.sys := by
          simp [step, hact]
        have hw : wstep budget w (WAction.act Action.taskL) = w := by
          rcases w with ⟨sys, now, fired, fires, hAcq, hHold, reset⟩
          simp only at hr hs
          subst hr
          simp [wstep, hs]
        rw [hw] at hshift ⊢
        exact ih w hr hact hpc hlt hshift hti
      | taskH =>
        have h := ih (wstep budget w (WAction.act Action.taskH))
          (by simp [wstep, hr]) (by simpa [wstep, hr, step] using hact)
          (by simpa [wstep, hr, step] using hpc) (by simpa [wstep, hr] using hlt) hshift
          (by simpa [wstep, hr] using hti)
        simpa [wstep, hr, step] using h

/-- C3 as amended, deadlock reproducibility: if the alarm fires while Task H
holds the spinlock, the ISR starts at once, and Task H goes on holding the lock
while at least one watchdog budget of time passes after the alarm, then the
system is reset exactly one budget after the alarm: the ISR is still at its
acquire, "ISR..." has been emitted and no invocation has completed, so
"Finita la ISR" has not. -/
theorem deadlock_reset (budget : Nat) (pre post : List WAction) (hb : 0 < budget)
    (hnr : (wrun budget pre).reset = false)
    (hidle : (wrun budget pre).sys.isr.active = false)
    (hheld : (wrun budget pre).sys.g.lock = some PRO_CPU_NUM)
    (hkeep : ∀ p ∈ post.inits,
      (wrun budget (pre ++ [WAction.act Action.fire, WAction.act Action.isr] ++ p)).reset
          = false →
        (wrun budget (pre ++ [WAction.act Action.fire, WAction.act Action.isr] ++ p)).sys.g.lock
          = some PRO_CPU_NUM)
    (htime : budget ≤ ticks post) :
    (wrun budget (pre ++ [WAction.act Action.fire, WAction.act Action.isr] ++ post)).reset
        = true
    ∧ (wrun budget (pre ++ [WAction.act Action.fire, WAction.act Action.isr] ++ post)).now
        = (wrun budget pre).now + budget
    ∧ (wrun budget
          (pre ++ [WAction.act Action.fire, WAction.act Action.isr] ++ post)).sys.isr.active
        = true
    ∧ onTimer.get? (wrun budget
          (pre ++ [WAction.act Action.fire, WAction.act Action.isr] ++ post)).sys.isr.pc
        = some Stmt.enterCriticalISR
    ∧ (wrun budget
          (pre ++ [WAction.act Action.fire, WAction.act Action.isr] ++ post)).sys.isr.trace
        = [Event.emit "ISR..." false]
    ∧ (wrun budget
          (pre ++ [WAction.act Action.fire, WAction.act Action.isr] ++ post)).sys.isr.hist
        = (wrun budget pre).sys.isr.hist := by
  have hinv := inv_wrun budget pre
  have hsplit : ∀ p, wrun budget (pre ++ [WAction.act Action.fire, WAction.act Action.isr] ++ p)
      = wrunFrom budget
          (wstep budget (wstep budget (wrun budget pre) (WAction.act Action.fire))
            (WAction.act Action.isr)) p := by
    intro p
    simp [wrun, wrunFrom, List.foldl_append]
  simp only [hsplit] at hkeep ⊢
  have hpc0 := hinv.isr_idle hidle
  have htr := hinv.isr_at
  generalize wrun budget pre = w0 at *
  obtain ⟨⟨⟨lock, reads, acq, rel⟩, ⟨ia, ipc, its, itr, ih⟩, th, tl⟩, now, fired, fires, hAcq,
    hHold, reset⟩ := w0
  simp only at hnr hidle hheld hpc0 htr
  subst hnr hidle hheld hpc0
  simp only [IsrAt] at htr
  subst htr
  have hw2 : wstep budget (wstep budget
        { sys := { g := { lock := some PRO_CPU_NUM, reads := reads, acquires := acq,
                          releases := rel },
                   isr := { active := false, pc := 0, timestamp := its, trace := [],
                            hist := ih },
                   taskH := th, taskL := tl },
          now := now, fired := fired, fires := fires, hAcq := hAcq, hHold := hHold,
          reset := false } (WAction.act Action.fire)) (WAction.act Action.isr)
      = { sys := { g := { lock := some PRO_CPU_NUM, reads := reads, acquires := acq,
                          releases := rel },
                   isr := { active := true, pc := 1, timestamp := its,
                            trace := [Event.emit "ISR..." false], hist := ih },
                   taskH := th, taskL := tl },
          now := now, fired := now, fires := fires + 1, hAcq := hAcq, hHold := hHold,
          reset := false } := by
    simp [wstep, step, stepThread, onTimer, execStmt, finish, PRO_CPU_NUM, APP_CPU_NUM]
  rw [hw2] at hkeep ⊢
  have h := blocked_until_reset budget post _ rfl rfl rfl (by simp only; omega) hkeep
    (by simp only; omega)
  obtain ⟨h1, h2, h3⟩ := h
  simp only at h2 h3
  refine ⟨h1, h2, ?_, ?_, ?_, ?_⟩ <;> simp [h3, onTimer]

set_option maxRecDepth 1000000

/-- Witness of C3 as amended: budget 300 ms, Task H takes the lock at time 0,
the alarm fires at once and Task H holds on for 300 ms. -/
theorem deadlock_reset_witness :
    (wrun 300 [WAction.act Action.taskH, WAction.act Action.taskH]).now = 0
    ∧ ((wrun 300 ([WAction.act Action.taskH, WAction.act Action.taskH]
          ++ [WAction.act Action.fire, WAction.act Action.isr]
          ++ List.replicate 300 WAction.tick)).reset = true
      ∧ (wrun 300 ([WAction.act Action.taskH, WAction.act Action.taskH]
          ++ [WAction.act Action.fire, WAction.act Action.isr]
          ++ List.replicate 300 WAction.tick)).now
        = (wrun 300 [WAction.act Action.taskH, WAction.act Action.taskH]).now + 300
      ∧ (wrun 300 ([WAction.act Action.taskH, WAction.act Action.taskH]
          ++ [WAction.act Action.fire, WAction.act Action.isr]
          ++ List.replicate 300 WAction.tick)).sys.isr.active = true
      ∧ onTimer.get? (wrun 300 ([WAction.act Action.taskH, WAction.act Action.taskH]
          ++ [WAction.act Action.fire, WAction.act Action.isr]
          ++ List.replicate 300 WAction.tick)).sys.isr.pc = some Stmt.enterCriticalISR
      ∧ (wrun 300 ([WAction.act Action.taskH, WAction.act Action.taskH]
          ++ [WAction.act Action.fire, WAction.act Action.isr]
          ++ List.replicate 300 WAction.tick)).sys.isr.trace = [Event.emit "ISR..." false]
      ∧ (wrun 300 ([WAction.act Action.taskH, WAction.act Action.taskH]
          ++ [WAction.act Action.fire, WAction.act Action.isr]
          ++ List.replicate 300 WAction.tick)).sys.isr.hist
        = (wrun 300 [WAction.act Action.taskH, WAction.act Action.taskH]).sys.isr.hist) :=
  ⟨by decide,
    deadlock_reset 300 [WAction.act Action.taskH, WAction.act Action.taskH]
      (List.replicate 300 WAction.tick) (by decide) (by decide) (by decide) (by decide)
      (by decide) (by decide)⟩

/-- Counterexample to C3 as stated, budget 300 ms: Task H holds the spinlock
from time 0 to time 300, so for no less than the budget, and the alarm fires at
time 299 while it holds; the ISR gets the lock 1 ms later and has completed at
time 320, with "Finita la ISR" emitted; at time 620, more than one budget after
the alarm, there has been no reset. -/
theorem deadlock_literal_counterexample :
    scenario 299 300 20
        = ([WAction.act Action.taskH, WAction.act Action.taskH]
            ++ List.replicate 299 WAction.tick)
          ++ [WAction.act Action.fire, WAction.act Action.isr]
          ++ (List.replicate 1 WAction.tick
              ++ [WAction.act Action.taskH, WAction.act Action.taskH,
                  WAction.act Action.isr, WAction.act Action.isr]
              ++ List.replicate 20 WAction.tick
              ++ [WAction.act Action.isr, WAction.act Action.isr, WAction.act Action.isr])
    ∧ (wrun 300 ([WAction.act Action.taskH, WAction.act Action.taskH]
        ++ List.replicate 299 WAction.tick)).now = 299
    ∧ (wrun 300 ([WAction.act Action.taskH, WAction.act Action.taskH]
        ++ List.replicate 299 WAction.tick)).sys.g.lock = some PRO_CPU_NUM
    ∧ (wrun 300 ([WAction.act Action.taskH, WAction.act Action.taskH]
        ++ List.replicate 299 WAction.tick)).sys.isr.active = false
    ∧ (wrun 300 (scenario 299 300 20 ++ List.replicate 300 WAction.tick)).hAcq = 0
    ∧ (wrun 300 (scenario 299 300 20 ++ List.replicate 300 WAction.tick)).hHold = 300
    ∧ (wrun 300 (scenario 299 300 20 ++ List.replicate 300 WAction.tick)).fired = 299
    ∧ (wrun 300 (scenario 299 300 20 ++ List.replicate 300 WAction.tick)).now = 620
    ∧ (wrun 300 (scenario 299 300 20 ++ List.replicate 300 WAction.tick)).reset = false
    ∧ (wrun 300 (scenario 299 300 20 ++ List.replicate 300 WAction.tick)).sys.isr.active = false
    ∧ (wrun 300 (scenario 299 300 20 ++ List.replicate 300 WAction.tick)).sys.isr.hist
        = [[Event.emit "ISR..." false, Event.acquire, Event.stamp 300 true,
            Event.poll 320 true, Event.release, Event.emit "Finita la ISR\r\n" false]] := by
  decide

/-- The bound of C4 is sharp: with a budget of 300 ms and Task H holding for
290 ms from the alarm on, the timing assumptions are met but 290 + 20 is not
below the budget, and the reset comes at time 300 inside the busy-wait of the
ISR. -/
theorem reset_inside_busy_wait :
    timely 300 290 winit (scenario 0 290 20) = true
    ∧ (wrun 300 (scenario 0 290 20)).hHold = 290
    ∧ (wrun 300 (scenario 0 290 20)).reset = true
    ∧ (wrun 300 (scenario 0 290 20)).now = 300
    ∧ (wrun 300 (scenario 0 290 20)).sys.isr.trace
        = [Event.emit "ISR..." false, Event.acquire, Event.stamp 290 true] := by
  decide

/-! ## Any number of timer periods -/

end SpinlockDemo
